import Mathlib

/-!
Verification of the draft/attachment subsystem of the `aiubot` repository.

Python strings are modelled as `List Char` (a Python `str` is a sequence of
code points).  Scores that the source keeps as Python floats are modelled in
exact integer hundredths (`0.3` becomes `30`); every comparison the verdicts
depend on is far from any float rounding boundary, so the verdicts agree with
the float computation.  Dynamic string payloads of issues and warnings are
modelled as tagged constructors (`Issue`, `Warning`): the source only ever
branches on how many issues exist, never on their text.

Sources embedded below:
  * `app/services/code_validator.py` — `CodeCompletenessValidator`
  * `app/db/models.py`               — enums, `Attachment.compute_content_hash`,
                                       `DraftVersion.validate_completeness`
  * `app/api/draft_routes.py`        — approve / reject / promote routes
  * `app/api/routers.py`             — `attach_file` (upload)
  * `app/api/github_routes.py`       — GitHub import
  * `app/services/cerebras_chain.py` — `promote_draft_to_attachment`
  * `cerebras_chain.py` (top level)  — `ai_chain_stream`
-/

set_option linter.unusedVariables false
set_option maxRecDepth 8192
set_option maxHeartbeats 2000000

namespace Aiubot

/-! ## Basic string machinery (Python `str` as `List Char`) -/

/-- Characters stripped by Python `str.strip()` with no argument (the ASCII
whitespace set; exotic Unicode spaces are not needed by any input here). -/
def pyWs (c : Char) : Bool :=
  c = ' ' || c = '\t' || c = '\n' || c = '\r' || c = '\x0b' || c = '\x0c'

/-- Python `str.lower()`, characterwise (all strings compared in the source are
ASCII, where Python lowercasing is characterwise). -/
def lowerL (s : List Char) : List Char := s.map Char.toLower

/-- Python `str.strip()`. -/
def stripL (s : List Char) : List Char :=
  ((s.dropWhile pyWs).reverse.dropWhile pyWs).reverse

/-- Does `s` start with `pre`? (Python `str.startswith`). -/
def startsWithL : List Char → List Char → Bool
  | _, [] => true
  | [], _ :: _ => false
  | a :: as, b :: bs => a = b && startsWithL as bs

/-- Does `s` end with `post`? (Python `str.endswith`). -/
def endsWithL (s post : List Char) : Bool := startsWithL s.reverse post.reverse

/-- Python `needle in hay`: contiguous-substring test, by scanning every
start position. -/
def containsSub : (hay needle : List Char) → Bool
  | [], needle => needle.isEmpty
  | hay@(_ :: t), needle => startsWithL hay needle || containsSub t needle

/-- Specification-side reading of `needle in hay`. -/
def isSubstring (needle hay : List Char) : Prop :=
  ∃ p q, hay = p ++ needle ++ q

/-- Python `str.split(sep)` for a one-character separator. -/
def splitOnCh (sep : Char) : List Char → List (List Char)
  | [] => [[]]
  | c :: t =>
    if c = sep then [] :: splitOnCh sep t
    else
      match splitOnCh sep t with
      | h :: r => (c :: h) :: r
      | [] => [[c]]

/-- Python `content.split('\n')`. -/
def splitNL : List Char → List (List Char) := splitOnCh '\n'

/-- Python `'\n'.join(lines)`. -/
def joinNL (lines : List (List Char)) : List Char :=
  (lines.intersperse ['\n']).flatten

/-- Python `l[-n:]`: the last (at most) `n` elements. -/
def lastNL (n : Nat) (l : List α) : List α := l.drop (l.length - n)

/-- Does `f` hold of some tail of `s`?  This is how a regex search tries every
start position of the subject string. -/
def anyTail (f : List Char → Bool) : List Char → Bool
  | [] => f []
  | s@(_ :: t) => f s || anyTail f t

theorem startsWithL_append (pre rest : List Char) :
    startsWithL (pre ++ rest) pre = true := by
  induction pre with
  | nil => cases rest <;> rfl
  | cons a as ih => simp [startsWithL, ih]

theorem startsWithL_iff (s pre : List Char) :
    startsWithL s pre = true ↔ ∃ rest, s = pre ++ rest := by
  constructor
  · intro h
    induction pre generalizing s with
    | nil => exact ⟨s, rfl⟩
    | cons b bs ih =>
      cases s with
      | nil => simp [startsWithL] at h
      | cons a as =>
        simp only [startsWithL, Bool.and_eq_true, decide_eq_true_eq] at h
        obtain ⟨rest, hr⟩ := ih as h.2
        exact ⟨rest, by simp [h.1, hr]⟩
  · rintro ⟨rest, rfl⟩
    exact startsWithL_append pre rest

theorem containsSub_iff (hay needle : List Char) :
    containsSub hay needle = true ↔ isSubstring needle hay := by
  constructor
  · intro h
    induction hay with
    | nil =>
      simp only [containsSub, List.isEmpty_iff] at h
      exact ⟨[], [], by simp [h]⟩
    | cons c t ih =>
      simp only [containsSub, Bool.or_eq_true] at h
      rcases h with h | h
      · obtain ⟨rest, hr⟩ := (startsWithL_iff _ _).1 h
        exact ⟨[], rest, by simp [hr]⟩
      · obtain ⟨p, q, hpq⟩ := ih h
        exact ⟨c :: p, q, by simp [hpq]⟩
  · rintro ⟨p, q, rfl⟩
    induction p with
    | nil =>
      cases needle with
      | nil => cases q <;> simp [containsSub, startsWithL]
      | cons b bs =>
        simp only [containsSub, Bool.or_eq_true]
        exact Or.inl (by simpa using startsWithL_append (b :: bs) q)
    | cons x xs ih =>
      simp only [List.cons_append, containsSub, Bool.or_eq_true]
      exact Or.inr ih

theorem isSubstring_map (f : Char → Char) {needle hay : List Char}
    (h : isSubstring needle hay) : isSubstring (needle.map f) (hay.map f) := by
  obtain ⟨p, q, rfl⟩ := h
  exact ⟨p.map f, q.map f, by simp⟩

/-! ## `app/services/code_validator.py` — `CodeCompletenessValidator`

The validator returns a dict `{is_complete, score, issues, warnings}`.  Issue
and warning strings are modelled as tagged values; the score is kept in exact
integer hundredths of the source's float score (`1.0` is `100`, a marker
penalty `0.3` is `30`).  With zero issues the only possible penalties are the
two `0.1` warnings, so the float score is at least `0.8` and every comparison
against the `0.7` threshold is decided identically in floats and in
hundredths. -/

/-- One entry of the `issues` list of `validate_completeness`. -/
inductive Issue where
  | contentTooShort
  | truncationMarker (marker : List Char)
  | incompletePattern (idx : Nat)
  | endsWithTruncation
  deriving DecidableEq

/-- One entry of the `warnings` list of `validate_completeness`. -/
inductive Warning where
  | unbalancedBrackets
  | fileTooShort (nonEmptyLines : Nat)
  deriving DecidableEq

/-- The class attribute `TRUNCATION_MARKERS`, in source order. -/
def TRUNCATION_MARKERS : List (List Char) :=
  [ "...".toList,
    "# ... rest of code".toList,
    "# ... kode lainnya".toList,
    "# rest of the code".toList,
    "// ... rest of code".toList,
    "// ... kode lainnya".toList,
    "/* ... */".toList,
    "<!-- ... -->".toList,
    "[truncated]".toList,
    "[continued]".toList,
    "[TRUNCATED]".toList,
    "[CONTINUED]".toList,
    "# dan seterusnya".toList,
    "// dan seterusnya".toList,
    "# ... (rest omitted)".toList,
    "// ... (rest omitted)".toList ]

/-- Regex `\w` restricted to ASCII (every subject the claims touch is ASCII). -/
def isWordChar (c : Char) : Bool := c.isAlphanum || c = '_'

/-- Require one then greedily consume a maximal run of characters satisfying
`p`.  Used for `\s+` and `\w+`: in each pattern below the following regex atom
is disjoint from `p`, so maximal munch equals the backtracking semantics. -/
def munch1 (p : Char → Bool) : List Char → Option (List Char)
  | [] => none
  | c :: t => if p c then some (t.dropWhile p) else none

/-- Consume a literal, or fail. -/
def dropLit (lit : List Char) (s : List Char) : Option (List Char) :=
  if startsWithL s lit then some (s.drop lit.length) else none

/-- Regex `INCOMPLETE_PATTERNS[0]`, `(def\s+\w+\([^)]*\):)\s*\.\.\.`, tested at
one start position of the (lowercased, for `re.IGNORECASE`) subject.  `[^)]*`
followed by `\)` can only match up to the first `)`, and `\s*` followed by
`\.\.\.` can only take the maximal whitespace run, so the match is
deterministic. -/
def matchP1At (s : List Char) : Bool :=
  (do
    let s ← dropLit "def".toList s
    let s ← munch1 pyWs s
    let s ← munch1 isWordChar s
    let s ← dropLit ['('] s
    let s := s.dropWhile (fun c => !(c = ')'))
    let s ← dropLit [')'] s
    let s ← dropLit [':'] s
    let s := s.dropWhile pyWs
    let _ ← dropLit "...".toList s
    pure ()).isSome

/-- Take a one-character literal if present (regex `X?` where skipping the
character can never lead to a match, making the choice deterministic). -/
def optChar (c : Char) (s : List Char) : List Char :=
  match s with
  | x :: t => if x = c then t else s
  | [] => s

/-- Regex `INCOMPLETE_PATTERNS[1]`,
`(function\s+\w+\([^)]*\))\s*\{?\s*\.\.\.`, at one start position. -/
def matchP2At (s : List Char) : Bool :=
  (do
    let s ← dropLit "function".toList s
    let s ← munch1 pyWs s
    let s ← munch1 isWordChar s
    let s ← dropLit ['('] s
    let s := s.dropWhile (fun c => !(c = ')'))
    let s ← dropLit [')'] s
    let s := s.dropWhile pyWs
    let s := optChar '\x7b' s
    let s := s.dropWhile pyWs
    let _ ← dropLit "...".toList s
    pure ()).isSome

/-- Tail of `INCOMPLETE_PATTERNS[2]`: `\{?\s*\.\.\.` at the current position. -/
def p3Tail (s : List Char) : Bool :=
  startsWithL ((optChar '\x7b' s).dropWhile pyWs) "...".toList

/-- Search for the `[^{]*\{?\s*\.\.\.` tail of `INCOMPLETE_PATTERNS[2]`:
`[^{]*` may skip any characters except `{`, and once a `{` is reached the only
remaining option is consuming it via `\{?`. -/
def scanP3 : List Char → Bool
  | [] => false
  | s@(c :: t) => p3Tail s || (!(c = '\x7b') && scanP3 t)

/-- Regex `INCOMPLETE_PATTERNS[2]`, `(class\s+\w+[^{]*)\{?\s*\.\.\.`, at one
start position.  Because `\w ⊆ [^{]`, matching exactly one `\w` and folding the
rest into the `[^{]*` search preserves existence of a match. -/
def matchP3At (s : List Char) : Bool :=
  (do
    let s ← dropLit "class".toList s
    let s ← munch1 pyWs s
    match s with
    | c :: t => if isWordChar c then some (scanP3 t) else none
    | [] => none).getD false

/-- Does pattern `i` of `INCOMPLETE_PATTERNS` match anywhere in `content`
(`re.findall` with `IGNORECASE | MULTILINE`; neither pattern uses `^`/`$`, so
`MULTILINE` is inert, and `IGNORECASE` is rendered by lowercasing the subject —
all literal and class atoms of the patterns are case-stable)? -/
def patternMatch (i : Nat) (content : List Char) : Bool :=
  match i with
  | 0 => anyTail matchP1At (lowerL content)
  | 1 => anyTail matchP2At (lowerL content)
  | _ => anyTail matchP3At (lowerL content)

/-- Indices of the incomplete-code patterns that match, in source order. -/
def patternHits (content : List Char) : List Nat :=
  (List.range 3).filter (fun i => patternMatch i content)

/-- Markers of `TRUNCATION_MARKERS` found in the lowercased content, in source
order (`if marker.lower() in content_lower`). -/
def foundMarkers (content : List Char) : List (List Char) :=
  TRUNCATION_MARKERS.filter (fun m => containsSub (lowerL content) (lowerL m))

/-! ### `_remove_strings_and_comments`

Seven sequential `re.sub` passes.  Each lazy pattern (`""".*?"""`, `'''.*?'''`,
`/\*.*?\*/`) removes, left to right, from each opener through the nearest
closer; if an opener has no closer the remainder of the string holds no later
match either, so it is kept verbatim.  The scanners below recurse on a strict
suffix at every step; the recursion is paid for with a fuel counter initialised
to the input length, which bounds the number of steps. -/

/-- Drop input up to and through the first occurrence of `lit` (`none` when
`lit` does not occur). -/
def dropThroughLit (lit : List Char) : List Char → Option (List Char)
  | [] => none
  | s@(_ :: t) =>
    if startsWithL s lit then some (s.drop lit.length) else dropThroughLit lit t

/-- Remainder after the first occurrence of character `q`, if any. -/
def afterChar (q : Char) : List Char → Option (List Char)
  | [] => none
  | c :: t => if c = q then some t else afterChar q t

/-- Lazy delimited removal, one fuel step per removed region or kept char. -/
def removeDelimLazyAux (opener closer : List Char) : Nat → List Char → List Char
  | 0, s => s
  | _ + 1, [] => []
  | fuel + 1, s@(c :: t) =>
    if startsWithL s opener then
      match dropThroughLit closer (s.drop opener.length) with
      | some rest => removeDelimLazyAux opener closer fuel rest
      | none => s
    else c :: removeDelimLazyAux opener closer fuel t

/-- `re.sub(opener .*? closer, '', s)` with `DOTALL`, for non-empty opener and
closer. -/
def removeDelimLazy (opener closer : List Char) (s : List Char) : List Char :=
  removeDelimLazyAux opener closer s.length s

/-- `re.sub(q[^q]*q, '', s)`: remove undelimited single-line string literals. -/
def removeQuotedAux (q : Char) : Nat → List Char → List Char
  | 0, s => s
  | _ + 1, [] => []
  | fuel + 1, c :: t =>
    if c = q then
      match afterChar q t with
      | some rest => removeQuotedAux q fuel rest
      | none => c :: t
    else c :: removeQuotedAux q fuel t

def removeQuoted (q : Char) (s : List Char) : List Char :=
  removeQuotedAux q s.length s

/-- `re.sub(trigger.*$, '', s)` with `MULTILINE`: delete from each trigger to
the end of its line (the newline itself survives, `.` not matching `\n`). -/
def removeLineCommentAux (trigger : List Char) : Nat → List Char → List Char
  | 0, s => s
  | _ + 1, [] => []
  | fuel + 1, s@(c :: t) =>
    if startsWithL s trigger then
      removeLineCommentAux trigger fuel (s.dropWhile (fun c => !(c = '\n')))
    else c :: removeLineCommentAux trigger fuel t

def removeLineComment (trigger : List Char) (s : List Char) : List Char :=
  removeLineCommentAux trigger s.length s

/-- The double-quote and single-quote characters, by code point (34 and 39). -/
def dqChar : Char := Char.ofNat 34
def sqChar : Char := Char.ofNat 39

/-- `_remove_strings_and_comments`: the seven passes in source order. -/
def removeStringsAndComments (content : List Char) : List Char :=
  let s := removeDelimLazy [dqChar, dqChar, dqChar] [dqChar, dqChar, dqChar] content
  let s := removeDelimLazy [sqChar, sqChar, sqChar] [sqChar, sqChar, sqChar] s
  let s := removeQuoted dqChar s
  let s := removeQuoted sqChar s
  let s := removeLineComment ['#'] s
  let s := removeLineComment ['/', '/'] s
  removeDelimLazy ['/', '*'] ['*', '/'] s

/-- Stack walk of `_check_bracket_balance` (returning only the balanced flag;
the source's message string feeds a warning whose text nothing branches on). -/
def checkBalanceAux : List Char → List Char → Bool
  | stack, [] => stack.isEmpty
  | stack, c :: t =>
    if c = '(' || c = '[' || c = '\x7b' then checkBalanceAux (c :: stack) t
    else if c = ')' || c = ']' || c = '\x7d' then
      match stack with
      | [] => false
      | o :: rest =>
        if (o = '(' && c = ')') || (o = '[' && c = ']') ||
           (o = '\x7b' && c = '\x7d') then checkBalanceAux rest t
        else false
    else checkBalanceAux stack t

/-- `_check_bracket_balance(content)['balanced']`. -/
def balancedBrackets (content : List Char) : Bool :=
  checkBalanceAux [] (removeStringsAndComments content)

/-- Step 4 of `validate_completeness`: the non-empty lines of the content. -/
def nonEmptyLines (content : List Char) : List (List Char) :=
  (splitNL content).filter (fun l => !(stripL l).isEmpty)

/-- Condition of the "File seems too short" warning. -/
def shortFile (content filename : List Char) : Bool :=
  decide ((nonEmptyLines content).length < 5) && !endsWithL filename ".txt".toList

/-- Step 5: `'\n'.join(lines[-5:]).strip()`. -/
def lastLines (content : List Char) : List Char :=
  stripL (joinNL (lastNL 5 (splitNL content)))

/-- Step 5 condition: `last_lines.endswith(('...', '# ...', '// ...'))`. -/
def abruptEnd (content : List Char) : Bool :=
  endsWithL (lastLines content) "...".toList ||
  endsWithL (lastLines content) "# ...".toList ||
  endsWithL (lastLines content) "// ...".toList

/-- The `issues` list after all five checks, in append order: one issue per
found marker, one per matching pattern, one for an abrupt ending. -/
def issuesOf (content : List Char) : List Issue :=
  (foundMarkers content).map Issue.truncationMarker ++
  (patternHits content).map Issue.incompletePattern ++
  (if abruptEnd content then [Issue.endsWithTruncation] else [])

/-- The `warnings` list, in append order. -/
def warningsOf (content filename : List Char) : List Warning :=
  (if !balancedBrackets content then [Warning.unbalancedBrackets] else []) ++
  (if shortFile content filename then
    [Warning.fileTooShort (nonEmptyLines content).length] else [])

/-- The running score before clamping, in hundredths: `1.0`, minus `0.3` per
marker, `0.2` per pattern, `0.1` per warning, `0.3` for an abrupt ending. -/
def rawScore (content filename : List Char) : Int :=
  100 - 30 * (foundMarkers content).length - 20 * (patternHits content).length -
    (if !balancedBrackets content then 10 else 0) -
    (if shortFile content filename then 10 else 0) -
    (if abruptEnd content then 30 else 0)

/-- `score = max(0.0, min(1.0, score))`. -/
def scoreOf (content filename : List Char) : Int :=
  max 0 (min 100 (rawScore content filename))

/-- The result dict of `validate_completeness`. -/
structure Verdict where
  is_complete : Bool
  score : Int
  issues : List Issue
  warnings : List Warning
  deriving DecidableEq

/-- `CodeCompletenessValidator.validate_completeness(content, filename)`.  The
guard is `not content or len(content.strip()) < 10`; the final verdict is
`score >= 0.7 and len(issues) == 0`. -/
def validate_completeness (content : List Char) (filename : List Char) : Verdict :=
  if content = [] ∨ (stripL content).length < 10 then
    ⟨false, 0, [Issue.contentTooShort], []⟩
  else
    ⟨decide (70 ≤ scoreOf content filename) && (issuesOf content).isEmpty,
     scoreOf content filename, issuesOf content, warningsOf content filename⟩

/-! ## `app/db/models.py` — enums and model-level helpers -/

/-- `FileStatus` (attachment lifecycle).  The source defines exactly these
three members; in particular there is no `ARCHIVED` member. -/
inductive FileStatus where
  | original
  | modified
  | latest
  deriving DecidableEq

/-- Names the `FileStatus` enum defines, as written in `models.py`. -/
def fileStatusMembers : List String := ["ORIGINAL", "MODIFIED", "LATEST"]

/-- `DraftStatus` (draft lifecycle). -/
inductive DraftStatus where
  | pending
  | approved
  | rejected
  | promoted
  deriving DecidableEq

/-- The marker list private to `DraftVersion.validate_completeness` (it
differs from the service validator's `TRUNCATION_MARKERS`). -/
def draftTruncationMarkers : List (List Char) :=
  [ "...".toList,
    "# ... rest of code".toList,
    "// ... rest of code".toList,
    "/* ... */".toList,
    "# kode lainnya".toList,
    "// kode lainnya".toList,
    "[truncated]".toList,
    "[continued]".toList ]

/-- `DraftVersion.validate_completeness(self)`: `False` on empty content, on
any marker hit (case-insensitive), or on fewer than 50 characters; `True`
otherwise. -/
def draft_validate_completeness (content : List Char) : Bool :=
  if content = [] then false
  else if draftTruncationMarkers.any
      (fun m => containsSub (lowerL content) (lowerL m)) then false
  else if content.length < 50 then false
  else true

/-! ### SHA-256 over the UTF-8 encoding (for `compute_content_hash`)

`hashlib.sha256(content.encode('utf-8')).hexdigest()` is embedded as the
standard FIPS 180-4 SHA-256 over the standard UTF-8 byte encoding, on `Nat`
with explicit `% 2^32`. -/

/-- UTF-8 bytes of one code point. -/
def utf8Char (c : Char) : List Nat :=
  let n := c.toNat
  if n < 128 then [n]
  else if n < 2048 then [192 + n / 64, 128 + n % 64]
  else if n < 65536 then [224 + n / 4096, 128 + n / 64 % 64, 128 + n % 64]
  else [240 + n / 262144, 128 + n / 4096 % 64, 128 + n / 64 % 64, 128 + n % 64]

/-- `content.encode('utf-8')` as a byte (0..255) list. -/
def utf8Encode (s : List Char) : List Nat := (s.map utf8Char).flatten

def w32 : Nat := 4294967296

def rotr32 (n x : Nat) : Nat := ((x >>> n) ||| (x <<< (32 - n))) % w32

/-- The 64 SHA-256 round constants of FIPS 180-4 (fractional cube-root bits
of the first 64 primes), written in decimal. -/
def sha256K : List Nat :=
  [
    1116352408, 1899447441, 3049323471, 3921009573,
    961987163, 1508970993, 2453635748, 2870763221,
    3624381080, 310598401, 607225278, 1426881987,
    1925078388, 2162078206, 2614888103, 3248222580,
    3835390401, 4022224774, 264347078, 604807628,
    770255983, 1249150122, 1555081692, 1996064986,
    2554220882, 2821834349, 2952996808, 3210313671,
    3336571891, 3584528711, 113926993, 338241895,
    666307205, 773529912, 1294757372, 1396182291,
    1695183700, 1986661051, 2177026350, 2456956037,
    2730485921, 2820302411, 3259730800, 3345764771,
    3516065817, 3600352804, 4094571909, 275423344,
    430227734, 506948616, 659060556, 883997877,
    958139571, 1322822218, 1537002063, 1747873779,
    1955562222, 2024104815, 2227730452, 2361852424,
    2428436474, 2756734187, 3204031479, 3329325298 ]

/-- The eight SHA-256 initial state words of FIPS 180-4, in decimal. -/
def sha256H0 : List Nat :=
  [
    1779033703, 3144134277, 1013904242, 2773480762,
    1359893119, 2600822924, 528734635, 1541459225 ]

/-- Big-endian byte rendering of `x` in `n` bytes. -/
def toBytesBE (n x : Nat) : List Nat :=
  (List.range n).map (fun i => x / 2 ^ (8 * (n - 1 - i)) % 256)

/-- SHA-256 padding: `0x80`, zeros to 56 mod 64, then the 64-bit bit length. -/
def sha256Pad (msg : List Nat) : List Nat :=
  msg ++ [128] ++ List.replicate ((120 - (msg.length + 1) % 64) % 64) 0 ++
    toBytesBE 8 (8 * msg.length)

/-- Big-endian 32-bit words from bytes. -/
def bytesToWords : List Nat → List Nat
  | a :: b :: c :: d :: rest => (((a * 256 + b) * 256 + c) * 256 + d) :: bytesToWords rest
  | _ => []

def smallSigma0 (x : Nat) : Nat := (rotr32 7 x ^^^ rotr32 18 x ^^^ (x >>> 3)) % w32
def smallSigma1 (x : Nat) : Nat := (rotr32 17 x ^^^ rotr32 19 x ^^^ (x >>> 10)) % w32
def bigSigma0 (x : Nat) : Nat := (rotr32 2 x ^^^ rotr32 13 x ^^^ rotr32 22 x) % w32
def bigSigma1 (x : Nat) : Nat := (rotr32 6 x ^^^ rotr32 11 x ^^^ rotr32 25 x) % w32

/-- Message-schedule extension: append `count` further words. -/
def extendWords : Nat → List Nat → List Nat
  | 0, w => w
  | count + 1, w =>
    let n := w.length
    let next := (smallSigma1 (w.getD (n - 2) 0) + w.getD (n - 7) 0 +
      smallSigma0 (w.getD (n - 15) 0) + w.getD (n - 16) 0) % w32
    extendWords count (w ++ [next])

/-- One compression round on the eight-word state `[a,b,c,d,e,f,g,h]`; `Ch`
uses the 32-bit complement of `e`. -/
def sha256Round (st : List Nat) (ki wi : Nat) : List Nat :=
  match st with
  | [a, b, c, d, e, f, g, h] =>
    let ch := (e &&& f) ^^^ ((w32 - 1 - e) &&& g)
    let t1 := (h + bigSigma1 e + ch + ki + wi) % w32
    let maj := (a &&& b) ^^^ (a &&& c) ^^^ (b &&& c)
    let t2 := (bigSigma0 a + maj) % w32
    [(t1 + t2) % w32, a, b, c, (d + t1) % w32, e, f, g]
  | st => st

/-- Compress one 16-word block into the running hash state. -/
def sha256Block (h : List Nat) (block : List Nat) : List Nat :=
  let w := extendWords 48 block
  let final := (List.range 64).foldl
    (fun st i => sha256Round st (sha256K.getD i 0) (w.getD i 0)) h
  (h.zip final).map (fun p => (p.1 + p.2) % w32)

/-- Split the padded word stream into 16-word blocks (each step consumes 16
words, so fuel equal to the word count is never exhausted). -/
def words16Aux : Nat → List Nat → List (List Nat)
  | 0, _ => []
  | _ + 1, [] => []
  | fuel + 1, l@(_ :: _) => l.take 16 :: words16Aux fuel (l.drop 16)

def words16 (l : List Nat) : List (List Nat) := words16Aux l.length l

/-- SHA-256 digest (32 bytes) of a byte list. -/
def sha256 (msg : List Nat) : List Nat :=
  let blocks := words16 (bytesToWords (sha256Pad msg))
  ((blocks.foldl sha256Block sha256H0).map (toBytesBE 4)).flatten

/-- Lowercase hex digit for `n < 16`. -/
def hexDigit (n : Nat) : Char :=
  if n < 10 then Char.ofNat (48 + n) else Char.ofNat (87 + n)

/-- Two lowercase hex characters of one byte. -/
def hexOfByte (b : Nat) : List Char := [hexDigit (b / 16), hexDigit (b % 16)]

/-- `bytes.hex()` / `hashlib..hexdigest()`: lowercase hex of a byte string. -/
def hexdigest (bytes : List Nat) : List Char := (bytes.map hexOfByte).flatten

/-- `Attachment.compute_content_hash(self)`: the digest of `self.content` when
the field is truthy (a non-empty string), and `""` when it is `None` or empty. -/
def compute_content_hash (content : Option (List Char)) : List Char :=
  match content with
  | some c => if c.isEmpty then [] else hexdigest (sha256 (utf8Encode c))
  | none => []

/-! ## Persisted rows and the boundary operations

`Attachment` and `DraftVersion` carry the columns the claims reason about;
claim-irrelevant columns of `models.py` (timestamps, `mime_type`,
`size_bytes`, `file_path`, `project_id`, the import metadata, `change_summary`
and friends) are omitted.  Timestamps that the claims do mention
(`reviewed_at`, `promoted_at`) are modelled as `Option Nat`, the `Nat` being
an abstract clock value passed into each route. -/

structure Attachment where
  id : Nat
  conversation_id : Nat
  filename : List Char
  original_filename : Option (List Char)
  content : List Char
  status : FileStatus
  version : Nat
  parent_file_id : Option Nat
  deriving DecidableEq

structure DraftVersion where
  id : Nat
  conversation_id : Nat
  filename : List Char
  content : List Char
  content_hash : List Char
  content_length : Nat
  version_number : Nat
  status : DraftStatus
  is_complete : Bool
  completeness_score : Int
  reviewed_at : Option Nat
  promoted_at : Option Nat
  deriving DecidableEq

/-- The persistent state the boundary operations touch: one conversation table
(ids only; project scoping is claim-irrelevant), the attachment and draft
tables, and the autoincrement counters. -/
structure DB where
  conversations : List Nat
  attachments : List Attachment
  drafts : List DraftVersion
  nextAttachmentId : Nat
  nextDraftId : Nat
  deriving DecidableEq

def initDB : DB := ⟨[], [], [], 1, 1⟩

/-- What a route returns: HTTP success payload or an `HTTPException`. -/
inductive ApiResult where
  | success (message : String)
  | error (statusCode : Nat) (detail : String)
  deriving DecidableEq

def ApiResult.isSuccess : ApiResult → Bool
  | .success _ => true
  | .error _ _ => false

def ApiResult.isError : ApiResult → Bool
  | .success _ => false
  | .error _ _ => true

/-- `session.get(models.DraftVersion, draft_id)`. -/
def findDraft (db : DB) (id : Nat) : Option DraftVersion :=
  db.drafts.find? (fun d => d.id == id)

/-- Write back a changed draft row (`session.add` + `commit` of a mutation of
the row with this id). -/
def updateDraft (db : DB) (id : Nat) (f : DraftVersion → DraftVersion) : DB :=
  { db with drafts := db.drafts.map (fun d => if d.id == id then f d else d) }

/-! ### `app/api/draft_routes.py` -/

/-- `approve_draft(draft_id)`: 404 when missing, 400 when `not
draft.is_complete`; otherwise sets `status = APPROVED` and `reviewed_at` and
commits.  The source never inspects the current status. -/
def approve_draft (db : DB) (id : Nat) (now : Nat) : ApiResult × DB :=
  match findDraft db id with
  | none => (.error 404 "Draft not found", db)
  | some d =>
    if !d.is_complete then (.error 400 "Cannot approve incomplete draft", db)
    else
      (.success "approved",
        updateDraft db id (fun d => { d with status := .approved, reviewed_at := some now }))

/-- `reject_draft(draft_id)`: 404 when missing; otherwise sets `status =
REJECTED` and `reviewed_at` and commits, with no other check at all. -/
def reject_draft (db : DB) (id : Nat) (now : Nat) : ApiResult × DB :=
  match findDraft db id with
  | none => (.error 404 "Draft not found", db)
  | some _ =>
    (.success "rejected",
      updateDraft db id (fun d => { d with status := .rejected, reviewed_at := some now }))

/-! ### `app/services/cerebras_chain.py` — `promote_draft_to_attachment`

The only definition of this function in the repository takes three required
positional parameters, `(draft_id: int, conversation_id: int, session)`.  Its
first statement is `session.get(models.Draft, draft_id)`; `models.py` defines
no attribute named `Draft` (see `modelsModuleNames`), so evaluating
`models.Draft` raises `AttributeError`, the function's own `except Exception`
handler rolls the session back and it returns `None`.  The statements after
that first one are equally unrunnable against the data model: they name
`models.FileStatus.ARCHIVED` (no such enum member, see `fileStatusMembers`)
and `draft.filepath` / `draft.file_type` / `draft.file_size` (no such
columns), so no path through the body can build an attachment row. -/

/-- Top-level names `app/db/models.py` actually defines. -/
def modelsModuleNames : List String :=
  ["FileStatus", "DraftStatus", "Project", "Conversation", "Chat",
   "Attachment", "DraftVersion"]

/-- Does `models.Draft` resolve? (It does not.) -/
def modelsHasDraftClass : Bool := modelsModuleNames.contains "Draft"

def promote_draft_to_attachment (draft_id conversation_id : Nat) (db : DB) :
    Option Attachment × DB :=
  if modelsHasDraftClass then
    -- never taken: guarded by the lookup of the non-existent `models.Draft`;
    -- even this branch could not produce a row (see the section comment), so
    -- the `except`-handler value is the function's value on every input
    (none, db)
  else
    (none, db)

/-- Parameters of `promote_draft_to_attachment` as declared in the source. -/
def promoteServiceParams : List String := ["draft_id", "conversation_id", "session"]

/-- Python positional-argument binding for a signature with no defaults:
a `TypeError` unless exactly the declared number of arguments is supplied. -/
def bindCall (params : List String) (args : Nat) : Except String Unit :=
  if args < params.length then
    .error "TypeError: missing required positional arguments"
  else if params.length < args then
    .error "TypeError: too many positional arguments"
  else .ok ()

/-- `promote_draft(draft_id)`: 404 when missing, 400 unless `status ==
APPROVED`, 400 unless `is_complete`; then the route evaluates
`promote_draft_to_attachment(draft, session)` — two arguments against three
required parameters, so the call raises `TypeError` before the service body
runs; the route's `except Exception` turns it into a 500.  Were the call
bound, the service still returns `None` (see above) and the route answers 500
`Failed to promote draft`.  No branch commits anything. -/
def promote_draft (db : DB) (id : Nat) : ApiResult × DB :=
  match findDraft db id with
  | none => (.error 404 "Draft not found", db)
  | some d =>
    if !(d.status == DraftStatus.approved) then
      (.error 400 "Draft must be approved before promotion", db)
    else if !d.is_complete then
      (.error 400 "Cannot promote incomplete draft", db)
    else
      match bindCall promoteServiceParams 2 with
      | .error e => (.error 500 e, db)
      | .ok _ =>
        match promote_draft_to_attachment d.id d.conversation_id db with
        | (none, db2) => (.error 500 "Failed to promote draft", db2)
        | (some a, db2) => (.success "promoted", db2)

/-! ### Uploads and imports (`app/api/routers.py`, `app/api/github_routes.py`)

The bodies of `attach_file` and the GitHub import endpoints are written to
insert `status=ORIGINAL, version=1` rows, but neither module can run against
the code in this tree.  `routers.py`'s module-level statement

  `from app.db.database import (get_session, create_project_database,
     delete_project_database, get_project_session, cleanup_stale_engines)`

faults with `ImportError` when the module is loaded, because
`app/db/database.py` defines none of those helpers except `get_session` (see
`databaseModuleNames`); `github_routes.py` begins with
`from app.api.routers import get_github_token`, so it dies with the same
`ImportError`.  Even were the modules loadable, `attach_file` dereferences
`project.database_name` (no such column on `Project`) and both modules build
`models.Attachment` without the required non-nullable `project_id`.  So no
upload or import request ever commits an attachment row: the operations are
modelled, like the equally unrunnable promote service, as the failure the
source produces, with the dead insertion logic noted here rather than
transcribed as if it ran. -/

/-- Top-level names `app/db/database.py` actually defines. -/
def databaseModuleNames : List String :=
  ["engine", "get_session", "init_db", "fix_conversation_table_columns",
   "fix_attachment_table_columns", "fix_chat_table_columns",
   "fix_draftversion_table_columns"]

/-- The names `routers.py` imports from `app.db.database` at module load. -/
def routersRequiredImports : List String :=
  ["get_session", "create_project_database", "delete_project_database",
   "get_project_session", "cleanup_stale_engines"]

/-- Does `app.api.routers` load?  (It does not: four of its imports have no
definition.)  `github_routes.py` imports from `routers`, so it loads exactly
when this does. -/
def routersModuleLoads : Bool :=
  routersRequiredImports.all (fun n => databaseModuleNames.contains n)

/-- `attach_file` (upload).  The route cannot be served: its module never
loads (`ImportError`), and the body behind the guard could not commit either
(`project.database_name`, missing `project_id`).  No branch touches the
database. -/
def attach_file (db : DB) (conv : Nat) (filename content : List Char) :
    ApiResult × DB :=
  if routersModuleLoads then
    -- never taken: kept to record that even a loaded module commits nothing
    (.error 500 "ImportError: app.api.routers failed to load", db)
  else
    (.error 500 "ImportError: app.api.routers failed to load", db)

/-- GitHub import (`import_files` / quick import).  Dead for the same
reason: `github_routes.py` imports `get_github_token` from the unloadable
`routers` module, and its `Attachment` constructions also omit the required
`project_id`.  No branch touches the database. -/
def import_files (db : DB) (conv : Nat) (files : List (List Char × List Char)) :
    ApiResult × DB :=
  if routersModuleLoads then
    -- never taken (see above)
    (.error 500 "ImportError: app.api.github_routes failed to load", db)
  else
    (.error 500 "ImportError: app.api.github_routes failed to load", db)

/-! ### The Draft Store's `createDraft` -/

/-- Largest `version_number` among this chain's drafts (0 when none). -/
def maxDraftVersion (db : DB) (conv : Nat) (filename : List Char) : Nat :=
  ((db.drafts.filter (fun d => d.conversation_id == conv && d.filename == filename)).map
    (fun d => d.version_number)).foldr max 0

/-- Modelled from the spec: the Draft Store operation `createDraft`
(spec §4.4) has no implementation under `src/` — no code there constructs a
`DraftVersion` row — so the insertion is rendered from the spec's words:
hash and length computed from `content` exactly as given, `version_number =
max(existing) + 1` starting at 1, the Completeness Validator's verdict stored
on the row, initial status `APPROVED` when the verdict is complete and
`PENDING` otherwise, and no effect on the attachment chain.  The
`attachmentId`/summary/details arguments carry no weight in any claim and are
omitted; unknown conversations are rejected (spec §7 NotFound). -/
def createDraft (db : DB) (conv : Nat) (filename content : List Char) :
    ApiResult × DB :=
  if !(db.conversations.contains conv) then (.error 404 "Conversation not found", db)
  else
    let verdict := validate_completeness content filename
    (.success "draft created",
      { db with
        drafts := db.drafts ++
          [{ id := db.nextDraftId, conversation_id := conv, filename := filename,
             content := content,
             content_hash := hexdigest (sha256 (utf8Encode content)),
             content_length := content.length,
             version_number := maxDraftVersion db conv filename + 1,
             status := if verdict.is_complete then .approved else .pending,
             is_complete := verdict.is_complete,
             completeness_score := verdict.score,
             reviewed_at := none, promoted_at := none }],
        nextDraftId := db.nextDraftId + 1 })

/-! ### Reachable states -/

/-- One boundary operation (`newConversation` is the conversation-CRUD setup
step that the other operations presuppose). -/
inductive Op where
  | newConversation (conv : Nat)
  | attach (conv : Nat) (filename content : List Char)
  | importOp (conv : Nat) (files : List (List Char × List Char))
  | createOp (conv : Nat) (filename content : List Char)
  | approve (id now : Nat)
  | reject (id now : Nat)
  | promote (id : Nat)

/-- The state after one operation (the route's committed state, whether or not
the route answered an error). -/
def applyOp (db : DB) : Op → DB
  | .newConversation conv => { db with conversations := db.conversations ++ [conv] }
  | .attach conv filename content => (attach_file db conv filename content).2
  | .importOp conv files => (import_files db conv files).2
  | .createOp conv filename content => (createDraft db conv filename content).2
  | .approve id now => (approve_draft db id now).2
  | .reject id now => (reject_draft db id now).2
  | .promote id => (promote_draft db id).2

/-- States reachable from the empty database through the boundary
operations. -/
inductive Reachable : DB → Prop where
  | base : Reachable initDB
  | step {db : DB} (h : Reachable db) (o : Op) : Reachable (applyOp db o)

/-! ## `cerebras_chain.py` (top level) — `ai_chain_stream`

The streaming entry point the spec calls the "Segmented Stream Assembler".
The provider (`stream_cerebras`, the network call) is abstracted as a function
from (messages, model name) to the list of delta contents of its chunks; the
source keeps a chunk only when `chunk.choices[0].delta.content` is truthy,
rendered as filtering out empty strings.  The function performs a fixed
pipeline of calls (reasoning, instruction, optional coder, polish); it never
reads a finish/stop reason, counts no segments and bounds no length. -/

structure PFile where
  path : String
  content : String

structure PChat where
  message : String
  ai_response : String

/-- Python `sub in s` on Lean strings. -/
def containsSubStr (s sub : String) : Bool := containsSub s.toList sub.toList

/-- Python `s.lower()` on Lean strings. -/
def lowerStr (s : String) : String := String.mk (lowerL s.toList)

/-- Messages are `(role, content)` pairs. -/
abbrev Msg := String × String

def thinkingModel : String := "qwen-3-235b-a22b-thinking-2507"
def instructModel : String := "qwen-3-235b-a22b-instruct-2507"
def coderModel : String := "qwen-3-coder-480b"
def polishModel : String := "gpt-oss-120b"

/-- `project_context`: the joined `[path]:\ncontent` lines, or `""` with no
files. -/
def projectContextOf (files : List PFile) : String :=
  if files.isEmpty then ""
  else String.intercalate "\n"
    (files.map (fun f => "[" ++ f.path ++ "]:\n" ++ f.content))

/-- `history`: the last 10 chat turns, or `""` with no chats. -/
def historyOf (chats : List PChat) : String :=
  if chats.isEmpty then ""
  else String.intercalate "\n"
    ((lastNL 10 chats).map (fun c => "User: " ++ c.message ++ "\nAI: " ++ c.ai_response))

/-- The rebound `messages`: the context system message prepended. -/
def contextMsgs (files : List PFile) (chats : List PChat) (messages : List Msg) :
    List Msg :=
  ("system", projectContextOf files ++ "\n\n" ++ historyOf chats) :: messages

/-- The coder-stage guard: any message content mentioning `code` or `kode`. -/
def hasCodeFlag (msgs : List Msg) : Bool :=
  msgs.any (fun m =>
    containsSubStr (lowerStr m.2) "code" || containsSubStr (lowerStr m.2) "kode")

/-- `ai_chain_stream(messages, project_id, conv_id, session)`.  The database
reads are the `files` and `chats` arguments; the return value is the pair of
the yielded chunks, in order, and the models called, in order. -/
def ai_chain_stream (provider : List Msg → String → List String)
    (files : List PFile) (chats : List PChat) (messages : List Msg) :
    List String × List String :=
  let msgs := contextMsgs files chats messages
  let chunks1 := (provider msgs thinkingModel).filter (fun c => !(c = ""))
  let reasoning := String.join chunks1
  let chunks2 := (provider (("system", reasoning) :: msgs) instructModel).filter
    (fun c => !(c = ""))
  let instruct := String.join chunks2
  let chunks3 :=
    if hasCodeFlag msgs then
      (provider (("system", instruct) :: msgs) coderModel).filter (fun c => !(c = ""))
    else []
  let chunks4 := (provider (("system", instruct) :: msgs) polishModel).filter
    (fun c => !(c = ""))
  (chunks1 ++ chunks2 ++ chunks3 ++ chunks4,
   [thinkingModel, instructModel] ++
     (if hasCodeFlag msgs then [coderModel] else []) ++ [polishModel])

/-- The models `ai_chain_stream` will call, which depend only on the database
context and the messages — never on anything the provider streams back. -/
def plannedCalls (files : List PFile) (chats : List PChat) (messages : List Msg) :
    List String :=
  [thinkingModel, instructModel] ++
    (if hasCodeFlag (contextMsgs files chats messages) then [coderModel] else []) ++
    [polishModel]

/-! ## Helper lemmas -/

/-- Run a list of boundary operations. -/
def runOps (db : DB) (ops : List Op) : DB := ops.foldl applyOp db

theorem reachable_runOps (ops : List Op) {db : DB} (h : Reachable db) :
    Reachable (runOps db ops) := by
  induction ops generalizing db with
  | nil => exact h
  | cons o t ih => exact ih (h.step o)

/-- The promote route commits nothing: every branch hands back the incoming
state (the success branch is unreachable behind the arity-mismatched call). -/
theorem promote_state_eq (db : DB) (id : Nat) : (promote_draft db id).2 = db := by
  unfold promote_draft
  cases findDraft db id with
  | none => rfl
  | some d =>
    dsimp only
    split
    · rfl
    · split
      · rfl
      · rfl

/-- The promote route never answers success. -/
theorem promote_isSuccess_false (db : DB) (id : Nat) :
    (promote_draft db id).1.isSuccess = false := by
  unfold promote_draft
  cases findDraft db id with
  | none => rfl
  | some d =>
    dsimp only
    split
    · rfl
    · split
      · rfl
      · rfl

/-- Data dependence of `find?` after an id-keyed map update whose updater
keeps the id. -/
theorem find?_update (l : List DraftVersion) (id : Nat)
    (f : DraftVersion → DraftVersion) (hf : ∀ d, (f d).id = d.id) :
    (l.map (fun d => if d.id == id then f d else d)).find? (fun d => d.id == id) =
      (l.find? (fun d => d.id == id)).map f := by
  induction l with
  | nil => rfl
  | cons a t ih =>
    cases h : (a.id == id) with
    | false =>
      have ha : (if (a.id == id) = true then f a else a) = a := by simp [h]
      simp only [List.map_cons, ha]
      rw [List.find?_cons_of_neg _ (by simp [h]), List.find?_cons_of_neg _ (by simp [h])]
      exact ih
    | true =>
      have ha : (if (a.id == id) = true then f a else a) = f a := by simp [h]
      simp only [List.map_cons, ha]
      rw [List.find?_cons_of_pos _ (by simp [hf, h]), List.find?_cons_of_pos _ (by simp [h])]
      rfl

theorem findDraft_updateDraft (db : DB) (id : Nat)
    (f : DraftVersion → DraftVersion) (hf : ∀ d, (f d).id = d.id) :
    findDraft (updateDraft db id f) id = (findDraft db id).map f :=
  find?_update db.drafts id f hf

/-! ## C1 -/

/-- C1 claims that every successful `promote` creates a LATEST attachment
with the draft's exact content and demotes the previous LATEST to MODIFIED.
In the code no promotion can succeed at all: the route's call
`promote_draft_to_attachment(draft, session)` supplies two arguments to a
three-parameter function (a `TypeError` the route converts to a 500), and the
service body itself falls at `models.Draft`, an attribute `models.py` does not
define, besides naming the non-existent `FileStatus.ARCHIVED` instead of
MODIFIED.  This theorem evaluates the promote route on every input: it never
succeeds and never changes the database, so the claimed post-state of a
successful promote is never realized. -/
theorem C1_promote_never_succeeds (db : DB) (id : Nat) :
    (promote_draft db id).1.isSuccess = false ∧ (promote_draft db id).2 = db :=
  ⟨promote_isSuccess_false db id, promote_state_eq db id⟩

/-! ## C2 -/

/-- Do the promote preconditions hold of `id`: the draft exists, its status is
APPROVED and it is complete? -/
def promotePrecondB (db : DB) (id : Nat) : Bool :=
  match findDraft db id with
  | some d => d.status == DraftStatus.approved && d.is_complete
  | none => false

/-- C2: whenever the preconditions fail — the draft is missing, or not
APPROVED, or not complete — the promote route answers a descriptive
`HTTPException` (404 `Draft not found` or one of the 400s) and leaves every
attachment and draft row exactly as it was. -/
theorem C2_promote_rejected_without_preconditions (db : DB) (id : Nat)
    (h : promotePrecondB db id = false) :
    (promote_draft db id).1.isError = true ∧ (promote_draft db id).2 = db := by
  refine ⟨?_, promote_state_eq db id⟩
  unfold promotePrecondB at h
  unfold promote_draft
  cases hf : findDraft db id with
  | none => rfl
  | some d =>
    rw [hf] at h
    dsimp only
    rcases Bool.and_eq_false_iff.mp h with h1 | h1
    · simp [h1, ApiResult.isError]
    · cases h2 : (d.status == DraftStatus.approved) with
      | false => simp [h2, ApiResult.isError]
      | true => simp [h1, h2, ApiResult.isError]

/-- C2 witness: the empty database holds no draft 1, and promoting it is a
rejected no-op. -/
theorem C2_witness :
    promotePrecondB initDB 1 = false ∧
    ((promote_draft initDB 1).1.isError = true ∧ (promote_draft initDB 1).2 = initDB) :=
  ⟨by decide, C2_promote_rejected_without_preconditions initDB 1 (by decide)⟩

/-! ## C3 -/

/-- Number of LATEST rows of the `(conversation_id, filename)` chain. -/
def latestCount (db : DB) (conv : Nat) (fn : List Char) : Nat :=
  (db.attachments.filter (fun a =>
    a.conversation_id == conv && a.filename == fn &&
      a.status == FileStatus.latest)).length

/-- An upload request never touches the state: its serving module does not
load. -/
theorem attach_state_eq (db : DB) (conv : Nat) (fn c : List Char) :
    (attach_file db conv fn c).2 = db := by
  unfold attach_file
  split <;> rfl

/-- An import request never touches the state either. -/
theorem import_state_eq (db : DB) (conv : Nat)
    (files : List (List Char × List Char)) :
    (import_files db conv files).2 = db := by
  unfold import_files
  split <;> rfl

theorem createDraft_attachments (db : DB) (conv : Nat) (fn c : List Char) :
    ((createDraft db conv fn c).2).attachments = db.attachments := by
  unfold createDraft
  split <;> rfl

theorem approve_attachments (db : DB) (id now : Nat) :
    ((approve_draft db id now).2).attachments = db.attachments := by
  unfold approve_draft
  cases findDraft db id with
  | none => rfl
  | some d => dsimp only; split <;> rfl

theorem reject_attachments (db : DB) (id now : Nat) :
    ((reject_draft db id now).2).attachments = db.attachments := by
  unfold reject_draft
  cases findDraft db id with
  | none => rfl
  | some d => rfl

/-- Inductive invariant: no boundary operation can commit an attachment row
(upload and import fault at module load, promotion faults before any
insert), so every reachable attachment table is empty. -/
theorem reachable_attachments_nil {db : DB} (h : Reachable db) :
    db.attachments = [] := by
  induction h with
  | base => rfl
  | step hr o ih =>
    rename_i dbp
    cases o with
    | newConversation conv => exact ih
    | attach conv fn content =>
      show ((attach_file dbp conv fn content).2).attachments = []
      rw [attach_state_eq]
      exact ih
    | importOp conv files =>
      show ((import_files dbp conv files).2).attachments = []
      rw [import_state_eq]
      exact ih
    | createOp conv fn content =>
      show ((createDraft dbp conv fn content).2).attachments = []
      rw [createDraft_attachments]
      exact ih
    | approve id now =>
      show ((approve_draft dbp id now).2).attachments = []
      rw [approve_attachments]
      exact ih
    | reject id now =>
      show ((reject_draft dbp id now).2).attachments = []
      rw [reject_attachments]
      exact ih
    | promote id =>
      show ((promote_draft dbp id).2).attachments = []
      rw [promote_state_eq]
      exact ih

/-- C3 claims the public operations maintain the attachment-chain invariants
(at most one LATEST per chain, promote-assigned versions `max(existing) + 1`,
hence strictly increasing).  In this code the machinery those invariants
govern cannot run at all: `routers.py` (upload) faults at module load on
imports `database.py` never defines, which takes `github_routes.py` (GitHub
import) down with it, and their bodies could not commit anyway
(`project.database_name` does not exist, the required `project_id` is never
supplied), while the promote path faults before any insert (see C1).  So no
reachable state holds any attachment row whatsoever: each chain has zero
LATEST rows and no version sequence ever exists, and the claimed invariants
are satisfied only vacuously — the version-chain behaviour the spec
describes is never exercised by the program. -/
theorem C3_no_attachment_ever_created (db : DB) (h : Reachable db) :
    db.attachments = [] ∧
      ∀ (conv : Nat) (fn : List Char), latestCount db conv fn = 0 := by
  refine ⟨reachable_attachments_nil h, fun conv fn => ?_⟩
  unfold latestCount
  rw [reachable_attachments_nil h]
  rfl

/-- A reachable state in which an upload of `app.py` has been attempted. -/
def dbAttachTry : DB :=
  runOps initDB
    [Op.newConversation 1, Op.attach 1 "app.py".toList "x = 1".toList]

/-- C3 witness: even after an upload request, the reachable state holds no
attachment row. -/
theorem C3_witness : dbAttachTry.attachments = [] :=
  (C3_no_attachment_ever_created dbAttachTry
    (reachable_runOps _ Reachable.base)).1

/-! ## C4 -/

/-- No draft row is PROMOTED or carries a `promoted_at`. -/
def noPromotedDraft (db : DB) : Bool :=
  db.drafts.all (fun d =>
    !(d.status == DraftStatus.promoted) && d.promoted_at == none)

theorem all_map_update (l : List DraftVersion) (id : Nat)
    (g : DraftVersion → DraftVersion) (P : DraftVersion → Bool)
    (hg : ∀ d, P d = true → P (g d) = true) (h : l.all P = true) :
    (l.map (fun d => if d.id == id then g d else d)).all P = true := by
  rw [List.all_eq_true] at *
  intro x hx
  rw [List.mem_map] at hx
  obtain ⟨d, hd, rfl⟩ := hx
  by_cases hid : (d.id == id) = true
  · rw [if_pos hid]
    exact hg d (h d hd)
  · rw [if_neg hid]
    exact h d hd

/-- C4 asserts that a draft that was successfully promoted still exists with
status PROMOTED and a once-set `promoted_at`.  In the code no draft can ever
reach that state: the promote route commits nothing (the service call is
arity-mismatched and its body dereferences the non-existent `models.Draft`),
and the service body would in any case have *deleted* the draft row
(`session.delete(draft)`) instead of marking it PROMOTED.  Inductively, no
reachable database contains a PROMOTED draft or a set `promoted_at`. -/
theorem C4_no_draft_ever_promoted (db : DB) (h : Reachable db) :
    noPromotedDraft db = true := by
  induction h with
  | base => rfl
  | step hr o ih =>
    rename_i dbp
    cases o with
    | newConversation conv => exact ih
    | attach conv fn content =>
      show noPromotedDraft (attach_file dbp conv fn content).2 = true
      rw [attach_state_eq]
      exact ih
    | importOp conv files =>
      show noPromotedDraft (import_files dbp conv files).2 = true
      rw [import_state_eq]
      exact ih
    | createOp conv fn content =>
      show noPromotedDraft (createDraft dbp conv fn content).2 = true
      unfold noPromotedDraft at *
      unfold createDraft
      split
      · exact ih
      · dsimp only
        rw [List.all_append]
        rw [ih]
        cases hv : (validate_completeness content fn).is_complete <;>
          simp [hv]
    | approve id now =>
      show noPromotedDraft (approve_draft dbp id now).2 = true
      unfold noPromotedDraft at *
      unfold approve_draft
      cases findDraft dbp id with
      | none => exact ih
      | some d =>
        dsimp only
        split
        · exact ih
        · unfold updateDraft
          apply all_map_update _ _ _ _ _ ih
          intro d hd
          simp only [Bool.and_eq_true] at hd ⊢
          exact ⟨by decide, hd.2⟩
    | reject id now =>
      show noPromotedDraft (reject_draft dbp id now).2 = true
      unfold noPromotedDraft at *
      unfold reject_draft
      cases findDraft dbp id with
      | none => exact ih
      | some d =>
        dsimp only
        unfold updateDraft
        apply all_map_update _ _ _ _ _ ih
        intro d hd
        simp only [Bool.and_eq_true] at hd ⊢
        exact ⟨by decide, hd.2⟩
    | promote id =>
      show noPromotedDraft (promote_draft dbp id).2 = true
      rw [promote_state_eq]
      exact ih

def goodContent : List Char := "a = 1\nb = 2\nc = 3\nd = 4\ne = 5".toList

/-- A reachable state holding one (validated, auto-approved) draft. -/
def dbOneDraft : DB :=
  runOps initDB
    [Op.newConversation 1, Op.createOp 1 "m.py".toList goodContent]

/-- C4 witness: the theorem applied to the concrete reachable state with a
draft row. -/
theorem C4_witness : noPromotedDraft dbOneDraft = true :=
  C4_no_draft_ever_promoted dbOneDraft (reachable_runOps _ Reachable.base)

/-! ## C5 -/

def draftExistsB (db : DB) (id : Nat) : Bool := (findDraft db id).isSome

def draftCompleteB (db : DB) (id : Nat) : Bool :=
  ((findDraft db id).map (fun d => d.is_complete)).getD false

def draftApprovedB (db : DB) (id : Nat) : Bool :=
  ((findDraft db id).map (fun d => d.status == DraftStatus.approved)).getD false

/-- A reachable state holding one complete draft that has been REJECTED: the
draft is created (auto-APPROVED by the validator verdict) and then rejected. -/
def dbC5 : DB :=
  runOps initDB
    [Op.newConversation 1, Op.createOp 1 "m.py".toList goodContent,
     Op.reject 1 5]

/-- C5 counterexample: REJECTED is not terminal.  In the reachable state
`dbC5` draft 1 is REJECTED, yet `approve_draft` answers success and moves it
back to APPROVED — the claim says approving a REJECTED draft is rejected as
an error, never silently accepted. -/
theorem C5_counterexample :
    Reachable dbC5 ∧
    ((findDraft dbC5 1).map (fun d => d.status) = some DraftStatus.rejected ∧
      (approve_draft dbC5 1 6).1.isSuccess = true ∧
      (findDraft (approve_draft dbC5 1 6).2 1).map (fun d => d.status) =
        some DraftStatus.approved) :=
  ⟨reachable_runOps _ Reachable.base, by decide⟩

/-- C5 (amended): the status machine the routes actually enforce.  `promote`
is rejected (with no state change) whenever the draft's status differs from
APPROVED — in particular on REJECTED and PROMOTED drafts — but `approve`
succeeds for any existing draft whose `is_complete` flag is set, whatever its
current status (even REJECTED or PROMOTED, which it silently moves back to
APPROVED), and `reject` succeeds for any existing draft whatever its status;
neither REJECTED nor PROMOTED is terminal under approve/reject. -/
theorem C5_draft_status_transitions :
    (∀ (db : DB) (id now : Nat), draftCompleteB db id = true →
      (approve_draft db id now).1.isSuccess = true ∧
        (findDraft (approve_draft db id now).2 id).map (fun d => d.status) =
          (findDraft db id).map (fun _ => DraftStatus.approved)) ∧
    (∀ (db : DB) (id now : Nat), draftExistsB db id = true →
      (reject_draft db id now).1.isSuccess = true) ∧
    (∀ (db : DB) (id : Nat), draftExistsB db id = true →
      draftApprovedB db id = false →
      (promote_draft db id).1.isError = true ∧ (promote_draft db id).2 = db) := by
  refine ⟨?_, ?_, ?_⟩
  · intro db id now h
    unfold draftCompleteB at h
    unfold approve_draft
    cases hf : findDraft db id with
    | none => rw [hf] at h; cases h
    | some d =>
      rw [hf] at h
      simp at h
      dsimp only
      rw [if_neg (by simp [h] : ¬((!d.is_complete) = true))]
      refine ⟨rfl, ?_⟩
      dsimp only
      rw [findDraft_updateDraft db id
        (fun d => { d with status := DraftStatus.approved, reviewed_at := some now })
        (fun d => rfl), hf]
      rfl
  · intro db id now h
    unfold draftExistsB at h
    unfold reject_draft
    cases hf : findDraft db id with
    | none => rw [hf] at h; cases h
    | some d => rfl
  · intro db id h ha
    refine ⟨?_, promote_state_eq db id⟩
    unfold draftExistsB at h
    unfold draftApprovedB at ha
    unfold promote_draft
    cases hf : findDraft db id with
    | none => rw [hf] at h; cases h
    | some d =>
      rw [hf] at ha
      simp at ha
      simp [ha, ApiResult.isError]

/-- C5 witness: the amended transition rules applied on `dbC5` — draft 1 is
complete yet REJECTED, approve succeeds on it, and promote is a rejected
no-op on it. -/
theorem C5_witness :
    draftCompleteB dbC5 1 = true ∧
    (approve_draft dbC5 1 9).1.isSuccess = true ∧
    ((promote_draft dbC5 1).1.isError = true ∧ (promote_draft dbC5 1).2 = dbC5) :=
  ⟨by decide, (C5_draft_status_transitions.1 dbC5 1 9 (by decide)).1,
    C5_draft_status_transitions.2.2 dbC5 1 (by decide) (by decide)⟩

/-! ## C6 -/

def c6Content : List Char := "abcdefghijk(".toList

/-- C6 counterexample: the claim says `is_complete` is true only when the
score reaches a configurable threshold defaulting to `0.95`.  On this content
(an unbalanced bracket and a short file, two warnings and no issue) the
validator computes score `0.80 < 0.95` yet reports `is_complete = true`: the
actual threshold is the hard-coded `0.7`, conjoined with an empty issue
list. -/
theorem C6_counterexample :
    (validate_completeness c6Content "m.py".toList).is_complete = true ∧
    (validate_completeness c6Content "m.py".toList).score < 95 := by
  decide

/-- C6 (amended): `is_complete` is decided by `score >= 0.7 and len(issues)
== 0` with the threshold hard-coded at `0.7`; and since with no issues the
only deductions are the two `0.1` warnings (score at least `0.8`), the
verdict collapses to "the issues list is empty" — contents with scores as low
as `0.8` are reported complete, so no `0.95` bar exists. -/
theorem C6_threshold (content filename : List Char) :
    (validate_completeness content filename).is_complete =
      (validate_completeness content filename).issues.isEmpty := by
  unfold validate_completeness
  split
  · rfl
  · dsimp only
    cases he : (issuesOf content).isEmpty with
    | false => simp
    | true =>
      have hiss : issuesOf content = [] := by
        rwa [List.isEmpty_iff] at he
      unfold issuesOf at hiss
      obtain ⟨hAB, hC⟩ := List.append_eq_nil.mp hiss
      obtain ⟨hA, hB⟩ := List.append_eq_nil.mp hAB
      have hfm : foundMarkers content = [] := List.map_eq_nil_iff.mp hA
      have hph : patternHits content = [] := List.map_eq_nil_iff.mp hB
      have hab : abruptEnd content = false := by
        cases hab : abruptEnd content with
        | false => rfl
        | true => rw [hab] at hC; simp at hC
      simp only [Bool.and_true, decide_eq_true_eq]
      unfold scoreOf rawScore
      rw [hfm, hph, hab]
      simp only [List.length_nil, Nat.cast_zero, mul_zero, Bool.false_eq_true,
        if_false]
      split_ifs <;> decide

/-! ## C7 -/

/-- C7: any content that contains the substring `...` and is long enough to
pass the near-empty gate is reported incomplete — `'...'` heads
`TRUNCATION_MARKERS`, its hit puts an issue on the list, and a non-empty
issue list forces `is_complete = false`. -/
theorem C7_ellipsis_incomplete (content filename : List Char)
    (h1 : containsSub content "...".toList = true)
    (h2 : 10 ≤ (stripL content).length) :
    (validate_completeness content filename).is_complete = false := by
  have hgate : ¬(content = [] ∨ (stripL content).length < 10) := by
    rintro (rfl | hlt)
    · simp [stripL, List.dropWhile] at h2
    · omega
  have hsub : isSubstring "...".toList content := (containsSub_iff _ _).1 h1
  have hlowsub : isSubstring (lowerL "...".toList) (lowerL content) :=
    isSubstring_map Char.toLower hsub
  have hmk : containsSub (lowerL content) (lowerL "...".toList) = true :=
    (containsSub_iff _ _).2 hlowsub
  have hfm : foundMarkers content ≠ [] := by
    unfold foundMarkers TRUNCATION_MARKERS
    rw [List.filter_cons]
    simp only [hmk, if_true]
    exact List.cons_ne_nil _ _
  have hissues : (issuesOf content).isEmpty = false := by
    unfold issuesOf
    cases hf : foundMarkers content with
    | nil => exact absurd hf hfm
    | cons a t => simp
  unfold validate_completeness
  rw [if_neg hgate]
  dsimp only
  rw [hissues, Bool.and_false]

def c7Content : List Char := "abc...defghij".toList

/-- C7 witness: a concrete content with `...` and 13 stripped characters is
reported incomplete. -/
theorem C7_witness :
    containsSub c7Content "...".toList = true ∧
    10 ≤ (stripL c7Content).length ∧
    (validate_completeness c7Content "m.py".toList).is_complete = false :=
  ⟨by decide, by decide,
    C7_ellipsis_incomplete c7Content "m.py".toList (by decide) (by decide)⟩

/-! ## C8 -/

/-- A provider whose every call is cut off by the per-call output cap: the
stop reason is invisible to `ai_chain_stream`, which never reads one. -/
def c8Provider : List Msg → String → List String := fun _ _ => ["SEGMENT"]

def c8Messages : List Msg := [("user", "tolong tulis kode python")]

/-- C8 counterexample: with every segment length-limited, the claim (its
Scenario B, `maxSegments = 3`) demands exactly 3 segments requested and then
exactly one `output limit reached` notice.  The code has no `maxSegments` or
`maxTotalLength` at all: on this input it requests 4 segments (reasoning,
instruction, coder — the message mentions `kode` — and polish) and emits no
notice chunk whatsoever. -/
theorem C8_counterexample :
    ((ai_chain_stream c8Provider [] [] c8Messages).2).length = 4 ∧
    (ai_chain_stream c8Provider [] [] c8Messages).1.filter
      (fun s => containsSubStr s "output limit reached") = [] := by
  decide

/-- C8 (amended): `ai_chain_stream` is a fixed pipeline, not a bounded
continuation loop.  Which calls it makes (`plannedCalls`) never depends on
anything the provider streams back — so no stop reason can trigger a
continuation — their number is at most 4, and every chunk it yields is a
chunk some provider call produced (it adds no chunk of its own, hence no
`output limit reached` notice ever originates in the assembler). -/
theorem C8_fixed_pipeline :
    (∀ (provider : List Msg → String → List String) files chats messages,
      (ai_chain_stream provider files chats messages).2 =
        plannedCalls files chats messages) ∧
    (∀ files chats messages, (plannedCalls files chats messages).length ≤ 4) ∧
    (∀ (provider : List Msg → String → List String) files chats messages ch,
      ch ∈ (ai_chain_stream provider files chats messages).1 →
      ∃ call model, ch ∈ provider call model) := by
  have calls_len : ∀ b : Bool,
      ([thinkingModel, instructModel] ++ (if b then [coderModel] else []) ++
        [polishModel]).length ≤ 4 := by
    intro b; cases b <;> simp
  refine ⟨fun provider files chats messages => rfl, ?_, ?_⟩
  · intro files chats messages
    unfold plannedCalls
    exact calls_len _
  · intro provider files chats messages ch hch
    unfold ai_chain_stream at hch
    dsimp only at hch
    rw [List.mem_append, List.mem_append, List.mem_append] at hch
    rcases hch with ((h | h) | h) | h
    · exact ⟨_, _, (List.mem_filter.mp h).1⟩
    · exact ⟨_, _, (List.mem_filter.mp h).1⟩
    · cases hkc : hasCodeFlag (contextMsgs files chats messages) with
      | true =>
        rw [hkc, if_pos rfl] at h
        exact ⟨_, _, (List.mem_filter.mp h).1⟩
      | false =>
        rw [hkc] at h
        simp at h
    · exact ⟨_, _, (List.mem_filter.mp h).1⟩

/-- C8 witness: a chunk of the concrete run traced back to a provider call. -/
theorem C8_witness :
    ("SEGMENT" ∈ (ai_chain_stream c8Provider [] [] c8Messages).1) ∧
    (∃ call model, "SEGMENT" ∈ c8Provider call model) :=
  ⟨by decide,
    C8_fixed_pipeline.2.2 c8Provider [] [] c8Messages "SEGMENT" (by decide)⟩

/-! ## C9 -/

/-- C9 counterexample: the two completeness checkers disagree.  On
`goodContent` (29 characters, five clean lines) the service validator says
complete while the model-level `DraftVersion.validate_completeness` says
incomplete, because the latter additionally requires at least 50
characters. -/
theorem C9_counterexample :
    (validate_completeness goodContent "m.py".toList).is_complete = true ∧
    draft_validate_completeness goodContent = false ∧
    ¬((validate_completeness goodContent "m.py".toList).is_complete =
        draft_validate_completeness goodContent) := by
  decide

/-- C9 (amended): the model-level checker refuses every content shorter than
50 characters, which the service validator may happily certify — the
concrete disagreement above. -/
theorem C9_model_requires_50 (content : List Char)
    (h : content.length < 50) :
    draft_validate_completeness content = false := by
  unfold draft_validate_completeness
  split_ifs with h1 h2 <;> rfl

/-- C9 witness: the 50-character floor applied to a 5-character content. -/
theorem C9_witness :
    ("x = 1".toList).length < 50 ∧
    draft_validate_completeness "x = 1".toList = false :=
  ⟨by decide, C9_model_requires_50 _ (by decide)⟩

/-! ## C10 -/

/-- Lowercase hexadecimal alphabet. -/
def isLowerHexChar (c : Char) : Bool :=
  (48 ≤ c.toNat && c.toNat ≤ 57) || (97 ≤ c.toNat && c.toNat ≤ 102)

theorem hexDigit_lower (n : Nat) (h : n < 16) :
    isLowerHexChar (hexDigit n) = true := by
  interval_cases n <;> decide

theorem hexOfByte_lower (b : Nat) (hb : b < 256) :
    ∀ c ∈ hexOfByte b, isLowerHexChar c = true := by
  intro c hc
  unfold hexOfByte at hc
  simp only [List.mem_cons, List.not_mem_nil, or_false] at hc
  rcases hc with rfl | rfl
  · exact hexDigit_lower _ (Nat.div_lt_of_lt_mul (by omega))
  · exact hexDigit_lower _ (Nat.mod_lt _ (by omega))

theorem toBytesBE_lt (n x : Nat) : ∀ b ∈ toBytesBE n x, b < 256 := by
  intro b hb
  unfold toBytesBE at hb
  rw [List.mem_map] at hb
  obtain ⟨i, -, rfl⟩ := hb
  exact Nat.mod_lt _ (by omega)

theorem sha256_bytes_lt (msg : List Nat) : ∀ b ∈ sha256 msg, b < 256 := by
  intro b hb
  unfold sha256 at hb
  rw [List.mem_flatten] at hb
  obtain ⟨l, hl, hbl⟩ := hb
  rw [List.mem_map] at hl
  obtain ⟨w, -, rfl⟩ := hl
  exact toBytesBE_lt 4 w b hbl

/-- C10: `compute_content_hash` returns `""` for a `None` or empty content
(and `""` is not the digest of the empty string, which is 64 hex characters),
and for non-empty content it returns exactly the SHA-256 hex digest of the
UTF-8 encoding, every character of which is lowercase hexadecimal. -/
theorem C10_compute_content_hash :
    compute_content_hash none = [] ∧
    compute_content_hash (some []) = [] ∧
    (∀ content : List Char, content ≠ [] →
      compute_content_hash (some content) =
        hexdigest (sha256 (utf8Encode content))) ∧
    (∀ (content : List Char) (c : Char),
      c ∈ compute_content_hash (some content) → isLowerHexChar c = true) ∧
    hexdigest (sha256 (utf8Encode [])) ≠ [] := by
  refine ⟨rfl, rfl, ?_, ?_, by decide⟩
  · intro content h
    cases content with
    | nil => exact absurd rfl h
    | cons a t => rfl
  · intro content c hc
    cases content with
    | nil => simp [compute_content_hash] at hc
    | cons a t =>
      replace hc : c ∈ hexdigest (sha256 (utf8Encode (a :: t))) := hc
      unfold hexdigest at hc
      rw [List.mem_flatten] at hc
      obtain ⟨l, hl, hcl⟩ := hc
      rw [List.mem_map] at hl
      obtain ⟨b, hb, rfl⟩ := hl
      exact hexOfByte_lower b (sha256_bytes_lt _ b hb) c hcl

/-- C10 witness: the non-empty branch applied at `"a"`, plus the lowercase
property applied to the first digest character. -/
theorem C10_witness :
    ("a".toList ≠ ([] : List Char)) ∧
    compute_content_hash (some "a".toList) =
      hexdigest (sha256 (utf8Encode "a".toList)) ∧
    isLowerHexChar 'c' = true :=
  ⟨by decide, C10_compute_content_hash.2.2.1 "a".toList (by decide),
    C10_compute_content_hash.2.2.2.1 "a".toList 'c' (by decide)⟩

end Aiubot
